import Mathlib

/-!
# Checkpoints (src/checkpoints.cpp)

A shallow embedding of the `Checkpoints` namespace: the two hard-coded
checkpoint tables, the per-network metadata, `CheckBlock`,
`GuessVerificationProgress`, `GetTotalBlocksEstimate` and `GetLastCheckpoint`.

Conventions of the embedding

* `uint256` values are natural numbers (the tables hold 256-bit literals; only
  equality of hashes is ever used).
* `int` heights and `int64` time stamps and counters are integers; the
  `int64` differences of `GuessVerificationProgress` are taken without
  wrap-around, as they are for every clock value and time stamp of magnitude
  below `2^62`.
* `std::map<int, uint256>` is the list of its entries in increasing key order;
  it is built, as `boost::assign::map_list_of` does, by inserting the listed
  pairs one by one with `std::map::insert`.
* `std::map<uint256, CBlockIndex*>` is an association list read with `find`.
* A `CBlockIndex*` is an `Option CBlockIndex`, `none` being `NULL`.
* The two ambient globals are explicit arguments: `fCheckpoints` is the value
  of `GetBoolArg("-checkpoints", true)`, `fTestNet` the network mode, and
  `nNow` the value of `time(NULL)`.
* `double` arithmetic is read as exact rational arithmetic; the one division
  whose divisor can vanish returns a `Double`, which keeps the IEEE outcomes
  of a division by zero apart from the finite quotients. The general
  statement about a zero divisor is restricted to inputs where every operand
  is computed without rounding (zero counts, no elapsed time), so that the
  exact divisor is the divisor of the code.
-/

set_option linter.dupNamespace false

namespace Checkpoints

/-! ## Data model -/

/-- Hash values of type `uint256`. -/
abbrev uint256 := Nat

/-- The type `std::map<int, uint256>`: entries in increasing key order. -/
abbrev MapCheckpoints := List (Int × uint256)

/-- The member `std::map::insert`: the pair is placed at its position in key
order, and a pair whose key is already present is dropped. -/
def mapInsert (e : Int × uint256) : MapCheckpoints → MapCheckpoints
  | [] => [e]
  | x :: xs =>
    if e.1 < x.1 then e :: x :: xs
    else if e.1 = x.1 then x :: xs
    else x :: mapInsert e xs

/-- The builder `boost::assign::map_list_of (k1, v1) (k2, v2) ...` converted to
a map: the pairs are inserted in the order they are written. -/
def map_list_of (l : List (Int × uint256)) : MapCheckpoints :=
  l.foldl (fun m e => mapInsert e m) []

/-- The member `std::map::find`: `none` stands for `end()`, `some v` for an
iterator whose `second` is `v`. -/
def MapCheckpoints.find : MapCheckpoints → Int → Option uint256
  | [], _ => none
  | x :: xs, k => if x.1 = k then some x.2 else MapCheckpoints.find xs k

/-- The struct `CCheckpointData`. -/
structure CCheckpointData where
  mapCheckpoints : MapCheckpoints
  nTimeLastCheckpoint : Int
  nTransactionsLastCheckpoint : Int
  fTransactionsPerDay : ℚ

/-- The constant `fSigcheckVerificationFactor`. -/
def fSigcheckVerificationFactor : ℚ := 5

/-- The main-network table `mapCheckpoints`. -/
def mapCheckpoints : MapCheckpoints :=
  map_list_of
    [ (0, 0xd58888d61baa00c7acd6388356e449ca5d54beacab38361fd48cad0012959a2d),
      (1, 0xc8b400c4920f8fac074a2c0ee9dfbe1238ae8d1058f671ca2a687dce3f020bd3),
      (2, 0x2bb1ba9134dc3586e4ed530f93ceed6bbafddbf0101209dcad0a04e39cf306d2),
      (4, 0x1a25b800b63ce88712c6922b1250650fdedfa69dd4bdc7ce9416f91fa0509656),
      (8, 0x03a74ca916a18c70269295c5dc99cd8324493a0f8a70e197b08940b1a02a4d97),
      (16, 0x49787d2751d24fa66c9c951a2b6a9fd74e5fab31220324bc7e88c82ff1f6276a),
      (32, 0x3e8440b622dfe14d0b31d3ee89743fb4e0461c83fc7736f438ee2a4f58f2c09a),
      (64, 0x049c83dddabb4348cba5b2d33d0983cd1f9f45031dd92f69ecf28720fe768df7),
      (128, 0xc95b575778f4521e3bfa193396303a076a9d10ec026cc5e24c04d8c1bbc006bb),
      (256, 0xeaa0c8504f7072cedfdc9304629ebead05eb2489ea965ddad7647820a6294bc3),
      (512, 0x2f1f852dcb7646424f211f289f01cc494da867899f0a57b6cc7bd6caa1bc78ef),
      (1024, 0xda3ea3b06fec5d586f31b24cb351e3f7f364a2da89731242c7c46190d1494ff2),
      (2048, 0xb073e6cf24e3351b6e48dcd38a3739f51465799a3463cc168bf12fe87b36fb14),
      (4096, 0x9ae88c13647e26a7a2b6fda70375a38564af6bbdfd3d95e54a4df3f6ad4a4935),
      (8192, 0x9576bdfb790f80043f014235d8f803fa0fb1aabd0c3cfea6c87fefed56f56a8a),
      (16384, 0x2c6722c5d7359779e8e564b34358561e734453c414241276440a9ac1bbaa2694),
      (32768, 0x514895ae1a7ff8cb57436fb4ee543f6d6561b21d327e3735403652c300764a1f),
      (61712, 0x302391a7f45300cfd9b40e25526f194206ed05b7193126a0419da5b7c01d746c) ]

/-- The main-network metadata `data`. -/
def data : CCheckpointData :=
  { mapCheckpoints := mapCheckpoints
    nTimeLastCheckpoint := 1410303386
    nTransactionsLastCheckpoint := 62071
    fTransactionsPerDay := 100 }

/-- The test-network table `mapCheckpointsTestnet`. -/
def mapCheckpointsTestnet : MapCheckpoints :=
  map_list_of
    [ (546, 0xa0fea99a6897f531600c8ae53367b126824fd6a847b2b2b73817a95b8e27e602) ]

/-- The test-network metadata `dataTestnet`. -/
def dataTestnet : CCheckpointData :=
  { mapCheckpoints := mapCheckpointsTestnet
    nTimeLastCheckpoint := 1365458829
    nTransactionsLastCheckpoint := 547
    fTransactionsPerDay := 576 }

/-- The selector `Checkpoints()`, with the global `fTestNet` as argument. -/
def Checkpoints (fTestNet : Bool) : CCheckpointData :=
  if fTestNet then dataTestnet else data

/-! ## CheckBlock -/

/-- The function `CheckBlock(nHeight, hash)`. -/
def CheckBlock (fCheckpoints fTestNet : Bool) (nHeight : Int) (hash : uint256) : Bool :=
  if !fCheckpoints then true
  else
    let checkpoints := (Checkpoints fTestNet).mapCheckpoints
    match checkpoints.find nHeight with
    | none => true
    | some v => decide (hash = v)

/-! ## GuessVerificationProgress -/

/-- Modelled from the spec: the class `CBlockIndex` is declared in `main.h`,
which is not among the sources. The spec gives a block index node a height, a
block timestamp and a cumulative transaction count; the fields keep the names
the code reads (`nTime`, `nChainTx`). They are integers, so that every
integral type the declaration may use is covered. -/
structure CBlockIndex where
  nHeight : Int
  nTime : Int
  nChainTx : Int
  deriving DecidableEq

/-- The outcome of a `double` division: a finite quotient, or what IEEE 754
gives when the divisor is zero. -/
inductive Double where
  | finite (q : ℚ)
  | posInf
  | negInf
  | nan
  deriving DecidableEq

/-- The `double` division `a / b` on exact operands. A zero divisor arising in
`GuessVerificationProgress` is the positive zero, so `a / 0` is `+inf` for
positive `a`, `-inf` for negative `a` and `NaN` for `a = 0`. The operands are
the exact values of `fWorkBefore` and `fWorkBefore + fWorkAfter`: the test
`b = 0` is the test the code performs wherever these are computed without
rounding, as they are when the elapsed time is zero and the counts are below
`2^53`; where the elapsed time is not a multiple of 86400 seconds the rounded
divisor of the code may differ from zero while the exact one is zero. -/
def Double.div (a b : ℚ) : Double :=
  if b = 0 then
    if a = 0 then Double.nan else if 0 < a then Double.posInf else Double.negInf
  else Double.finite (a / b)

/-- The two branches of `GuessVerificationProgress` that compute the pair
`(fWorkBefore, fWorkAfter)` for a non-null `pindex`. -/
def work (data : CCheckpointData) (nNow : Int) (pindex : CBlockIndex) : ℚ × ℚ :=
  if pindex.nChainTx ≤ data.nTransactionsLastCheckpoint then
    let nCheapBefore : ℚ := ((pindex.nChainTx : Int) : ℚ)
    let nCheapAfter : ℚ := ((data.nTransactionsLastCheckpoint - pindex.nChainTx : Int) : ℚ)
    let nExpensiveAfter : ℚ :=
      ((nNow - data.nTimeLastCheckpoint : Int) : ℚ) / 86400 * data.fTransactionsPerDay
    (nCheapBefore, nCheapAfter + nExpensiveAfter * fSigcheckVerificationFactor)
  else
    let nCheapBefore : ℚ := ((data.nTransactionsLastCheckpoint : Int) : ℚ)
    let nExpensiveBefore : ℚ := ((pindex.nChainTx - data.nTransactionsLastCheckpoint : Int) : ℚ)
    let nExpensiveAfter : ℚ :=
      ((nNow - pindex.nTime : Int) : ℚ) / 86400 * data.fTransactionsPerDay
    (nCheapBefore + nExpensiveBefore * fSigcheckVerificationFactor,
      nExpensiveAfter * fSigcheckVerificationFactor)

/-- The value of `fWorkBefore` at the `return` statement. -/
def fWorkBefore (data : CCheckpointData) (nNow : Int) (pindex : CBlockIndex) : ℚ :=
  (work data nNow pindex).1

/-- The value of `fWorkAfter` at the `return` statement. -/
def fWorkAfter (data : CCheckpointData) (nNow : Int) (pindex : CBlockIndex) : ℚ :=
  (work data nNow pindex).2

/-- The body of `GuessVerificationProgress(pindex)` for the metadata `data`
returned by `Checkpoints()` and the clock value `nNow`. -/
def GuessVerificationProgressWith (data : CCheckpointData) (nNow : Int) :
    Option CBlockIndex → Double
  | none => Double.finite 0
  | some pindex =>
    Double.div (fWorkBefore data nNow pindex)
      (fWorkBefore data nNow pindex + fWorkAfter data nNow pindex)

/-- The function `GuessVerificationProgress(pindex)`. -/
def GuessVerificationProgress (fTestNet : Bool) (nNow : Int)
    (pindex : Option CBlockIndex) : Double :=
  GuessVerificationProgressWith (Checkpoints fTestNet) nNow pindex

/-! ## GetTotalBlocksEstimate -/

/-- The member `std::map::rbegin`: the entry with the largest key, `none` when
the map is empty (where dereferencing `rbegin()` is undefined). -/
def MapCheckpoints.rbegin (m : MapCheckpoints) : Option (Int × uint256) :=
  m.getLast?

/-- The function `GetTotalBlocksEstimate()`; `none` is the undefined read of
`rbegin()->first` on an empty table. -/
def GetTotalBlocksEstimate (fCheckpoints fTestNet : Bool) : Option Int :=
  if !fCheckpoints then some 0
  else
    let checkpoints := (Checkpoints fTestNet).mapCheckpoints
    checkpoints.rbegin.map Prod.fst

/-! ## GetLastCheckpoint -/

/-- The type `std::map<uint256, CBlockIndex*>`, as an association list. -/
abbrev MapBlockIndex := List (uint256 × Option CBlockIndex)

/-- The member `std::map::find` of the block index: `none` stands for `end()`,
`some p` for an iterator whose `second` is the pointer `p`. -/
def MapBlockIndex.find : MapBlockIndex → uint256 → Option (Option CBlockIndex)
  | [], _ => none
  | x :: xs, k => if x.1 = k then some x.2 else MapBlockIndex.find xs k

/-- The loop of `GetLastCheckpoint` over the entries in the order they are
visited, followed by the final `return NULL`. -/
def scanCheckpoints (mapBlockIndex : MapBlockIndex) :
    List (Int × uint256) → Option CBlockIndex
  | [] => none
  | i :: rest =>
    let hash := i.2
    match mapBlockIndex.find hash with
    | some t => t
    | none => scanCheckpoints mapBlockIndex rest

/-- The function `GetLastCheckpoint(mapBlockIndex)`; `BOOST_REVERSE_FOREACH`
visits the table from the largest key down. -/
def GetLastCheckpoint (fCheckpoints fTestNet : Bool)
    (mapBlockIndex : MapBlockIndex) : Option CBlockIndex :=
  if !fCheckpoints then none
  else
    let checkpoints := (Checkpoints fTestNet).mapCheckpoints
    scanCheckpoints mapBlockIndex checkpoints.reverse

/-! ## Lemmas on the tables -/

/-- The keys of a table increase strictly along the list. -/
def KeysIncreasing (m : MapCheckpoints) : Prop :=
  List.Pairwise (fun a b : Int × uint256 => a.1 < b.1) m

theorem find_eq_some_mem {m : MapCheckpoints} {k : Int} {v : uint256}
    (h : m.find k = some v) : (k, v) ∈ m := by
  induction m with
  | nil => simp [MapCheckpoints.find] at h
  | cons x xs ih =>
    unfold MapCheckpoints.find at h
    by_cases hk : x.1 = k
    · rw [if_pos hk] at h
      have hv : x.2 = v := Option.some.inj h
      have hx : x = (k, v) := Prod.ext hk hv
      exact hx ▸ List.mem_cons_self x xs
    · rw [if_neg hk] at h
      exact List.mem_cons_of_mem x (ih h)

theorem find_of_mem {m : MapCheckpoints} (hs : KeysIncreasing m) {k : Int} {v : uint256}
    (h : (k, v) ∈ m) : m.find k = some v := by
  induction m with
  | nil => cases h
  | cons x xs ih =>
    have hs' := List.pairwise_cons.mp hs
    unfold MapCheckpoints.find
    rcases List.mem_cons.mp h with hx | hx
    · subst hx
      simp
    · have hlt : x.1 < k := hs'.1 (k, v) hx
      rw [if_neg (ne_of_lt hlt)]
      exact ih hs'.2 hx

theorem find_eq_none_of_absent {m : MapCheckpoints} {k : Int}
    (h : k ∉ m.map Prod.fst) : m.find k = none := by
  cases hf : m.find k with
  | none => rfl
  | some v =>
    exact absurd (List.mem_map.mpr ⟨(k, v), find_eq_some_mem hf, rfl⟩) h

theorem mapCheckpoints_eq :
    mapCheckpoints =
      [ (0, 0xd58888d61baa00c7acd6388356e449ca5d54beacab38361fd48cad0012959a2d),
        (1, 0xc8b400c4920f8fac074a2c0ee9dfbe1238ae8d1058f671ca2a687dce3f020bd3),
        (2, 0x2bb1ba9134dc3586e4ed530f93ceed6bbafddbf0101209dcad0a04e39cf306d2),
        (4, 0x1a25b800b63ce88712c6922b1250650fdedfa69dd4bdc7ce9416f91fa0509656),
        (8, 0x03a74ca916a18c70269295c5dc99cd8324493a0f8a70e197b08940b1a02a4d97),
        (16, 0x49787d2751d24fa66c9c951a2b6a9fd74e5fab31220324bc7e88c82ff1f6276a),
        (32, 0x3e8440b622dfe14d0b31d3ee89743fb4e0461c83fc7736f438ee2a4f58f2c09a),
        (64, 0x049c83dddabb4348cba5b2d33d0983cd1f9f45031dd92f69ecf28720fe768df7),
        (128, 0xc95b575778f4521e3bfa193396303a076a9d10ec026cc5e24c04d8c1bbc006bb),
        (256, 0xeaa0c8504f7072cedfdc9304629ebead05eb2489ea965ddad7647820a6294bc3),
        (512, 0x2f1f852dcb7646424f211f289f01cc494da867899f0a57b6cc7bd6caa1bc78ef),
        (1024, 0xda3ea3b06fec5d586f31b24cb351e3f7f364a2da89731242c7c46190d1494ff2),
        (2048, 0xb073e6cf24e3351b6e48dcd38a3739f51465799a3463cc168bf12fe87b36fb14),
        (4096, 0x9ae88c13647e26a7a2b6fda70375a38564af6bbdfd3d95e54a4df3f6ad4a4935),
        (8192, 0x9576bdfb790f80043f014235d8f803fa0fb1aabd0c3cfea6c87fefed56f56a8a),
        (16384, 0x2c6722c5d7359779e8e564b34358561e734453c414241276440a9ac1bbaa2694),
        (32768, 0x514895ae1a7ff8cb57436fb4ee543f6d6561b21d327e3735403652c300764a1f),
        (61712, 0x302391a7f45300cfd9b40e25526f194206ed05b7193126a0419da5b7c01d746c) ] := by
  decide

theorem mapCheckpointsTestnet_eq :
    mapCheckpointsTestnet =
      [ (546, 0xa0fea99a6897f531600c8ae53367b126824fd6a847b2b2b73817a95b8e27e602) ] := by
  decide

theorem mapCheckpoints_increasing : KeysIncreasing mapCheckpoints := by
  unfold KeysIncreasing
  decide

theorem mapCheckpointsTestnet_increasing : KeysIncreasing mapCheckpointsTestnet := by
  unfold KeysIncreasing
  decide

theorem registry_increasing (fTestNet : Bool) :
    KeysIncreasing (Checkpoints fTestNet).mapCheckpoints := by
  cases fTestNet
  · exact mapCheckpoints_increasing
  · exact mapCheckpointsTestnet_increasing

/-! ## CheckBlock: theorems -/

/-- C1: with enforcement enabled, at a height `h` that carries the checkpoint
`(h, H)` in the selected registry, `CheckBlock h y` is true exactly when the
candidate hash `y` is the registered hash `H`. -/
theorem CheckBlock_checkpointed_iff (fTestNet : Bool) (h : Int) (H y : uint256)
    (hmem : (h, H) ∈ (Checkpoints fTestNet).mapCheckpoints) :
    CheckBlock true fTestNet h y = true ↔ y = H := by
  have hf := find_of_mem (registry_increasing fTestNet) hmem
  simp [CheckBlock, hf]

theorem CheckBlock_checkpointed_iff_witness :
    (16, 0x49787d2751d24fa66c9c951a2b6a9fd74e5fab31220324bc7e88c82ff1f6276a)
        ∈ (Checkpoints false).mapCheckpoints ∧
      (CheckBlock true false 16 7 = true ↔
        7 = 0x49787d2751d24fa66c9c951a2b6a9fd74e5fab31220324bc7e88c82ff1f6276a) :=
  ⟨by decide, CheckBlock_checkpointed_iff false 16 _ 7 (by decide)⟩

/-- C2: with enforcement enabled, at a height that is not a key of the selected
registry (negative heights included), `CheckBlock` is true for every hash. -/
theorem CheckBlock_no_checkpoint (fTestNet : Bool) (h : Int) (hash : uint256)
    (habs : h ∉ (Checkpoints fTestNet).mapCheckpoints.map Prod.fst) :
    CheckBlock true fTestNet h hash = true := by
  have hf := find_eq_none_of_absent habs
  simp [CheckBlock, hf]

theorem CheckBlock_no_checkpoint_witness :
    (-1 : Int) ∉ (Checkpoints false).mapCheckpoints.map Prod.fst ∧
      CheckBlock true false (-1) 7 = true :=
  ⟨by decide, CheckBlock_no_checkpoint false (-1) 7 (by decide)⟩

/-- C3: with enforcement disabled, `CheckBlock` is true for every height, every
hash and either network mode. -/
theorem CheckBlock_disabled (fTestNet : Bool) (h : Int) (hash : uint256) :
    CheckBlock false fTestNet h hash = true := by
  simp [CheckBlock]

/-! ## GetLastCheckpoint: theorems -/

theorem scanCheckpoints_none (idx : MapBlockIndex) (r : List (Int × uint256))
    (h : ∀ e ∈ r, idx.find e.2 = none) : scanCheckpoints idx r = none := by
  induction r with
  | nil => rfl
  | cons i rest ih =>
    have hi : idx.find i.2 = none := h i (List.mem_cons_self i rest)
    have hrest : ∀ e ∈ rest, idx.find e.2 = none :=
      fun e he => h e (List.mem_cons_of_mem i he)
    simp [scanCheckpoints, hi, ih hrest]

/-- Scanning a list whose keys decrease returns the pointer stored under the
hash of the entry with the largest key among those whose hash is in the
index. -/
theorem scanCheckpoints_first (idx : MapBlockIndex) (r : List (Int × uint256))
    (hdec : List.Pairwise (fun a b : Int × uint256 => b.1 < a.1) r)
    (hex : ∃ e ∈ r, (idx.find e.2).isSome = true) :
    ∃ e ∈ r, ∃ p, idx.find e.2 = some p ∧ scanCheckpoints idx r = p ∧
      ∀ e' ∈ r, (idx.find e'.2).isSome = true → e'.1 ≤ e.1 := by
  induction r with
  | nil =>
    obtain ⟨e, he, _⟩ := hex
    cases he
  | cons i rest ih =>
    have hd := List.pairwise_cons.mp hdec
    cases hi : idx.find i.2 with
    | some p =>
      refine ⟨i, List.mem_cons_self i rest, p, hi, ?_, ?_⟩
      · simp [scanCheckpoints, hi]
      · intro e' he' _
        rcases List.mem_cons.mp he' with h1 | h1
        · rw [h1]
        · exact le_of_lt (hd.1 e' h1)
    | none =>
      have hex' : ∃ e ∈ rest, (idx.find e.2).isSome = true := by
        obtain ⟨e, he, hs⟩ := hex
        rcases List.mem_cons.mp he with h1 | h1
        · rw [h1, hi] at hs
          cases hs
        · exact ⟨e, h1, hs⟩
      obtain ⟨e, he, p, hp, hscan, hmax⟩ := ih hd.2 hex'
      refine ⟨e, List.mem_cons_of_mem i he, p, hp, ?_, ?_⟩
      · simp [scanCheckpoints, hi, hscan]
      · intro e' he' hs'
        rcases List.mem_cons.mp he' with h1 | h1
        · rw [h1, hi] at hs'
          cases hs'
        · exact hmax e' h1 hs'

theorem reverse_decreasing {m : MapCheckpoints} (hs : KeysIncreasing m) :
    List.Pairwise (fun a b : Int × uint256 => b.1 < a.1) m.reverse :=
  List.pairwise_reverse.mpr hs

/-- C4: with enforcement enabled, whenever some checkpoint of the selected
registry has its hash among the keys of the local index, `GetLastCheckpoint`
returns the pointer the index stores under the hash `H` of a checkpoint
`(h, H)` of the registry, and `h` is the largest height whose checkpoint hash
is a key of the index: every matching checkpoint has a height at most `h`, and
no checkpoint above `h` has its hash in the index. -/
theorem GetLastCheckpoint_highest (fTestNet : Bool) (mapBlockIndex : MapBlockIndex)
    (hex : ∃ e ∈ (Checkpoints fTestNet).mapCheckpoints,
      (mapBlockIndex.find e.2).isSome = true) :
    ∃ h H p, (h, H) ∈ (Checkpoints fTestNet).mapCheckpoints ∧
      mapBlockIndex.find H = some p ∧
      GetLastCheckpoint true fTestNet mapBlockIndex = p ∧
      (∀ e ∈ (Checkpoints fTestNet).mapCheckpoints,
        (mapBlockIndex.find e.2).isSome = true → e.1 ≤ h) ∧
      (∀ e ∈ (Checkpoints fTestNet).mapCheckpoints,
        h < e.1 → mapBlockIndex.find e.2 = none) := by
  have hdec := reverse_decreasing (registry_increasing fTestNet)
  have hex' : ∃ e ∈ (Checkpoints fTestNet).mapCheckpoints.reverse,
      (mapBlockIndex.find e.2).isSome = true := by
    obtain ⟨e, he, hs⟩ := hex
    exact ⟨e, List.mem_reverse.mpr he, hs⟩
  obtain ⟨e, he, p, hp, hscan, hmax⟩ :=
    scanCheckpoints_first mapBlockIndex _ hdec hex'
  have hmax' : ∀ e' ∈ (Checkpoints fTestNet).mapCheckpoints,
      (mapBlockIndex.find e'.2).isSome = true → e'.1 ≤ e.1 :=
    fun e' he' hs' => hmax e' (List.mem_reverse.mpr he') hs'
  refine ⟨e.1, e.2, p, List.mem_reverse.mp he, hp, ?_, hmax', ?_⟩
  · simp [GetLastCheckpoint, hscan]
  · intro e' he' hlt
    cases hf : mapBlockIndex.find e'.2 with
    | none => rfl
    | some q =>
      have hle := hmax' e' he' (by rw [hf]; rfl)
      exact absurd hlt (not_lt.mpr hle)

theorem GetLastCheckpoint_highest_witness :
    (∃ e ∈ (Checkpoints false).mapCheckpoints,
      (MapBlockIndex.find
        [ (0x49787d2751d24fa66c9c951a2b6a9fd74e5fab31220324bc7e88c82ff1f6276a,
            some ⟨16, 1400000000, 17⟩),
          (0x049c83dddabb4348cba5b2d33d0983cd1f9f45031dd92f69ecf28720fe768df7,
            some ⟨64, 1400003000, 65⟩) ] e.2).isSome = true) ∧
    (∃ h H p, (h, H) ∈ (Checkpoints false).mapCheckpoints ∧
      MapBlockIndex.find
        [ (0x49787d2751d24fa66c9c951a2b6a9fd74e5fab31220324bc7e88c82ff1f6276a,
            some ⟨16, 1400000000, 17⟩),
          (0x049c83dddabb4348cba5b2d33d0983cd1f9f45031dd92f69ecf28720fe768df7,
            some ⟨64, 1400003000, 65⟩) ] H = some p ∧
      GetLastCheckpoint true false
        [ (0x49787d2751d24fa66c9c951a2b6a9fd74e5fab31220324bc7e88c82ff1f6276a,
            some ⟨16, 1400000000, 17⟩),
          (0x049c83dddabb4348cba5b2d33d0983cd1f9f45031dd92f69ecf28720fe768df7,
            some ⟨64, 1400003000, 65⟩) ] = p ∧
      (∀ e ∈ (Checkpoints false).mapCheckpoints,
        (MapBlockIndex.find
          [ (0x49787d2751d24fa66c9c951a2b6a9fd74e5fab31220324bc7e88c82ff1f6276a,
              some ⟨16, 1400000000, 17⟩),
            (0x049c83dddabb4348cba5b2d33d0983cd1f9f45031dd92f69ecf28720fe768df7,
              some ⟨64, 1400003000, 65⟩) ] e.2).isSome = true → e.1 ≤ h) ∧
      (∀ e ∈ (Checkpoints false).mapCheckpoints,
        h < e.1 →
          MapBlockIndex.find
            [ (0x49787d2751d24fa66c9c951a2b6a9fd74e5fab31220324bc7e88c82ff1f6276a,
                some ⟨16, 1400000000, 17⟩),
              (0x049c83dddabb4348cba5b2d33d0983cd1f9f45031dd92f69ecf28720fe768df7,
                some ⟨64, 1400003000, 65⟩) ] e.2 = none)) :=
  ⟨by decide, GetLastCheckpoint_highest false _ (by decide)⟩

/-- C5: `GetLastCheckpoint` returns `NULL` whenever enforcement is disabled,
whatever the index holds; when enabled, whenever no checkpoint hash of the
selected registry is a key of the index; and in particular on the empty
index. -/
theorem GetLastCheckpoint_none :
    (∀ (fTestNet : Bool) (mapBlockIndex : MapBlockIndex),
      GetLastCheckpoint false fTestNet mapBlockIndex = none) ∧
    (∀ (fTestNet : Bool) (mapBlockIndex : MapBlockIndex),
      (∀ e ∈ (Checkpoints fTestNet).mapCheckpoints, mapBlockIndex.find e.2 = none) →
        GetLastCheckpoint true fTestNet mapBlockIndex = none) ∧
    (∀ fTestNet : Bool, GetLastCheckpoint true fTestNet [] = none) := by
  have key : ∀ (fTestNet : Bool) (mapBlockIndex : MapBlockIndex),
      (∀ e ∈ (Checkpoints fTestNet).mapCheckpoints, mapBlockIndex.find e.2 = none) →
        GetLastCheckpoint true fTestNet mapBlockIndex = none := by
    intro fTestNet idx h
    have hr : ∀ e ∈ (Checkpoints fTestNet).mapCheckpoints.reverse,
        idx.find e.2 = none := fun e he => h e (List.mem_reverse.mp he)
    simp [GetLastCheckpoint, scanCheckpoints_none idx _ hr]
  refine ⟨?_, key, ?_⟩
  · intro fTestNet idx
    simp [GetLastCheckpoint]
  · intro fTestNet
    exact key fTestNet [] (fun e _ => rfl)

theorem GetLastCheckpoint_none_witness :
    (∀ e ∈ (Checkpoints false).mapCheckpoints,
      MapBlockIndex.find [(5, some ⟨3, 1400000000, 4⟩)] e.2 = none) ∧
    GetLastCheckpoint true false [(5, some ⟨3, 1400000000, 4⟩)] = none :=
  ⟨by decide, GetLastCheckpoint_none.2.1 false _ (by decide)⟩

/-! ## GetTotalBlocksEstimate: theorems -/

/-- C6: `GetTotalBlocksEstimate` returns 0 when enforcement is disabled; when
enabled it returns 61712 on the main network and 546 on the test network, and
on either network the value returned is a key of the selected registry that no
key of the registry exceeds. -/
theorem GetTotalBlocksEstimate_spec :
    (∀ fTestNet : Bool, GetTotalBlocksEstimate false fTestNet = some 0) ∧
    GetTotalBlocksEstimate true false = some 61712 ∧
    GetTotalBlocksEstimate true true = some 546 ∧
    (∀ fTestNet : Bool, ∃ m : Int,
      GetTotalBlocksEstimate true fTestNet = some m ∧
      m ∈ (Checkpoints fTestNet).mapCheckpoints.map Prod.fst ∧
      ∀ e ∈ (Checkpoints fTestNet).mapCheckpoints, e.1 ≤ m) := by
  refine ⟨?_, by decide, by decide, ?_⟩
  · intro fTestNet
    simp [GetTotalBlocksEstimate]
  · intro fTestNet
    cases fTestNet
    · exact ⟨61712, by decide, by decide, by decide⟩
    · exact ⟨546, by decide, by decide, by decide⟩

/-! ## GuessVerificationProgress: lemmas -/

theorem Double.div_of_pos {a b : ℚ} (hb : 0 < b) :
    Double.div a b = Double.finite (a / b) := by
  simp [Double.div, ne_of_gt hb]

theorem work_of_le (data : CCheckpointData) (nNow : Int) (pindex : CBlockIndex)
    (h : pindex.nChainTx ≤ data.nTransactionsLastCheckpoint) :
    work data nNow pindex =
      ((pindex.nChainTx : ℚ),
        ((data.nTransactionsLastCheckpoint : ℚ) - pindex.nChainTx) +
          ((nNow : ℚ) - data.nTimeLastCheckpoint) / 86400 * data.fTransactionsPerDay * 5) := by
  simp [work, h, fSigcheckVerificationFactor]

theorem work_of_gt (data : CCheckpointData) (nNow : Int) (pindex : CBlockIndex)
    (h : data.nTransactionsLastCheckpoint < pindex.nChainTx) :
    work data nNow pindex =
      ((data.nTransactionsLastCheckpoint : ℚ) +
          ((pindex.nChainTx : ℚ) - data.nTransactionsLastCheckpoint) * 5,
        ((nNow : ℚ) - pindex.nTime) / 86400 * data.fTransactionsPerDay * 5) := by
  simp [work, not_le.mpr h, fSigcheckVerificationFactor]

/-- The estimated number of work units per elapsed second is not negative when
the transaction rate is not negative. -/
theorem elapsed_work_nonneg {s t : Int} {r : ℚ} (hst : s ≤ t) (hr : 0 ≤ r) :
    0 ≤ ((t : ℚ) - s) / 86400 * r * 5 := by
  have h : (0 : ℚ) ≤ (t : ℚ) - s := by
    have : (s : ℚ) ≤ t := by exact_mod_cast hst
    linarith
  exact mul_nonneg (mul_nonneg (div_nonneg h (by norm_num)) hr) (by norm_num)

theorem elapsed_work_anti {s s' t : Int} {r : ℚ} (hs : s ≤ s') (hr : 0 ≤ r) :
    ((t : ℚ) - s') / 86400 * r * 5 ≤ ((t : ℚ) - s) / 86400 * r * 5 := by
  have h : (t : ℚ) - s' ≤ (t : ℚ) - s := by
    have : (s : ℚ) ≤ s' := by exact_mod_cast hs
    linarith
  have h1 : ((t : ℚ) - s') / 86400 ≤ ((t : ℚ) - s) / 86400 :=
    div_le_div_of_nonneg_right h (by norm_num)
  exact mul_le_mul_of_nonneg_right (mul_le_mul_of_nonneg_right h1 hr) (by norm_num)

/-- For metadata with a positive transaction count and a non-negative rate, a
node with a non-negative transaction count, and a clock not earlier than the
time stamp its branch subtracts, both work amounts are non-negative and their
sum is positive. -/
theorem work_bounds (data : CCheckpointData)
    (hC : 0 < data.nTransactionsLastCheckpoint) (hr : 0 ≤ data.fTransactionsPerDay)
    (nNow : Int) (pindex : CBlockIndex) (hn : 0 ≤ pindex.nChainTx)
    (hnow : if pindex.nChainTx ≤ data.nTransactionsLastCheckpoint
      then data.nTimeLastCheckpoint ≤ nNow else pindex.nTime ≤ nNow) :
    0 ≤ fWorkBefore data nNow pindex ∧ 0 ≤ fWorkAfter data nNow pindex ∧
      0 < fWorkBefore data nNow pindex + fWorkAfter data nNow pindex := by
  have hCq : (0 : ℚ) < data.nTransactionsLastCheckpoint := by exact_mod_cast hC
  have hnq : (0 : ℚ) ≤ pindex.nChainTx := by exact_mod_cast hn
  by_cases hle : pindex.nChainTx ≤ data.nTransactionsLastCheckpoint
  · rw [if_pos hle] at hnow
    have hE := elapsed_work_nonneg hnow hr
    have hleq : (pindex.nChainTx : ℚ) ≤ data.nTransactionsLastCheckpoint := by
      exact_mod_cast hle
    simp only [fWorkBefore, fWorkAfter, work_of_le data nNow pindex hle]
    refine ⟨hnq, ?_, ?_⟩ <;> linarith
  · rw [if_neg hle] at hnow
    have hX := elapsed_work_nonneg hnow hr
    have hgt : (data.nTransactionsLastCheckpoint : ℚ) < pindex.nChainTx := by
      exact_mod_cast not_le.mp hle
    simp only [fWorkBefore, fWorkAfter, work_of_gt data nNow pindex (not_le.mp hle)]
    refine ⟨?_, hX, ?_⟩ <;> linarith

theorem quotient_unit {w x : ℚ} (hw : 0 ≤ w) (hx : 0 ≤ x) (hpos : 0 < w + x) :
    0 ≤ w / (w + x) ∧ w / (w + x) ≤ 1 :=
  ⟨div_nonneg hw (le_of_lt hpos), (div_le_one hpos).mpr (by linarith)⟩

theorem quotient_mono {w1 x1 w2 x2 : ℚ} (h1 : 0 < w1 + x1) (h2 : 0 < w2 + x2)
    (h : w1 * x2 ≤ w2 * x1) : w1 / (w1 + x1) ≤ w2 / (w2 + x2) := by
  rw [div_le_div_iff₀ h1 h2]
  nlinarith

/-! ## GuessVerificationProgress: theorems -/

/-- C7 (as stated, refuted): on the main network, for the node of the last
checkpoint (height 61712, 62071 transactions) and a clock one day earlier than
the checkpoint time stamp, `fWorkAfter` is -500 and the value returned is
62071/61571, which is greater than 1. -/
theorem GuessVerificationProgress_exceeds_one :
    GuessVerificationProgress false (1410303386 - 86400)
        (some ⟨61712, 1410303386, 62071⟩) = Double.finite (62071 / 61571) ∧
      (1 : ℚ) < 62071 / 61571 := by
  constructor
  · simp [GuessVerificationProgress, GuessVerificationProgressWith, Checkpoints, data,
      fWorkBefore, fWorkAfter, work, Double.div, fSigcheckVerificationFactor]
    norm_num
  · norm_num

/-- C7 (amended): for either shipped registry, every known node with a
non-negative transaction count, and every clock value not earlier than the
time stamp the node's branch subtracts (the checkpoint time stamp when
`nChainTx` is at most the checkpoint count, the node's own `nTime` otherwise),
`GuessVerificationProgress` returns a finite value in the closed interval
from 0 to 1. -/
theorem GuessVerificationProgress_unit_interval (fTestNet : Bool) (nNow : Int)
    (pindex : CBlockIndex) (hn : 0 ≤ pindex.nChainTx)
    (hnow : if pindex.nChainTx ≤ (Checkpoints fTestNet).nTransactionsLastCheckpoint
      then (Checkpoints fTestNet).nTimeLastCheckpoint ≤ nNow else pindex.nTime ≤ nNow) :
    ∃ q : ℚ, GuessVerificationProgress fTestNet nNow (some pindex) = Double.finite q ∧
      0 ≤ q ∧ q ≤ 1 := by
  have hC : 0 < (Checkpoints fTestNet).nTransactionsLastCheckpoint := by
    cases fTestNet <;> decide
  have hr : 0 ≤ (Checkpoints fTestNet).fTransactionsPerDay := by
    cases fTestNet <;> norm_num [Checkpoints, data, dataTestnet]
  obtain ⟨hw, hx, hpos⟩ := work_bounds (Checkpoints fTestNet) hC hr nNow pindex hn hnow
  refine ⟨_, ?_, quotient_unit hw hx hpos⟩
  simp only [GuessVerificationProgress, GuessVerificationProgressWith]
  exact Double.div_of_pos hpos

theorem GuessVerificationProgress_unit_interval_witness :
    (0 : Int) ≤ (⟨61712, 1410303386, 62071⟩ : CBlockIndex).nChainTx ∧
    (if (⟨61712, 1410303386, 62071⟩ : CBlockIndex).nChainTx
          ≤ (Checkpoints false).nTransactionsLastCheckpoint
      then (Checkpoints false).nTimeLastCheckpoint ≤ 1410303386 + 86400
      else (⟨61712, 1410303386, 62071⟩ : CBlockIndex).nTime ≤ 1410303386 + 86400) ∧
    ∃ q : ℚ, GuessVerificationProgress false (1410303386 + 86400)
        (some ⟨61712, 1410303386, 62071⟩) = Double.finite q ∧ 0 ≤ q ∧ q ≤ 1 :=
  ⟨by decide, by decide,
    GuessVerificationProgress_unit_interval false (1410303386 + 86400)
      ⟨61712, 1410303386, 62071⟩ (by decide) (by decide)⟩

/-- C8 (as stated, refuted): with a checkpoint count of 0, a node with no
transactions and a clock equal to the checkpoint time stamp, the sum
`fWorkBefore + fWorkAfter` is zero and the value returned is the NaN of `0/0`,
not 1.0. The same happens on the shipped test network for a node with no
transactions when the clock is 16410 seconds before the checkpoint time
stamp. -/
theorem GuessVerificationProgress_zero_work_nan :
    (fWorkBefore ⟨mapCheckpointsTestnet, 1365458829, 0, 576⟩ 1365458829 ⟨0, 1365458829, 0⟩
        + fWorkAfter ⟨mapCheckpointsTestnet, 1365458829, 0, 576⟩ 1365458829
            ⟨0, 1365458829, 0⟩ = 0 ∧
      GuessVerificationProgressWith ⟨mapCheckpointsTestnet, 1365458829, 0, 576⟩ 1365458829
        (some ⟨0, 1365458829, 0⟩) = Double.nan ∧
      Double.nan ≠ Double.finite 1) ∧
    (fWorkBefore (Checkpoints true) 1365442419 ⟨0, 1365442419, 0⟩
        + fWorkAfter (Checkpoints true) 1365442419 ⟨0, 1365442419, 0⟩ = 0 ∧
      GuessVerificationProgress true 1365442419 (some ⟨0, 1365442419, 0⟩) = Double.nan) := by
  refine ⟨⟨?_, ?_, by decide⟩, ?_, ?_⟩
  · simp [fWorkBefore, fWorkAfter, work, fSigcheckVerificationFactor]
  · simp [GuessVerificationProgressWith, fWorkBefore, fWorkAfter, work, Double.div,
      fSigcheckVerificationFactor]
  · simp [Checkpoints, dataTestnet, fWorkBefore, fWorkAfter, work,
      fSigcheckVerificationFactor]
    norm_num
  · simp [GuessVerificationProgress, GuessVerificationProgressWith, Checkpoints,
      dataTestnet, fWorkBefore, fWorkAfter, work, Double.div, fSigcheckVerificationFactor]
    norm_num

/-- C8 (amended): the division is carried out unguarded. For every registry
metadata whose checkpoint transaction count is 0, every known node whose
transaction count is 0 and the clock equal to the checkpoint time stamp (the
example of the claim: no elapsed time, `fWorkBefore` and `fWorkAfter` both
zero, every operand computed without rounding), `fWorkBefore + fWorkAfter` is
zero and `GuessVerificationProgress` returns the NaN of `0/0`, not 1.0. -/
theorem GuessVerificationProgress_zero_divisor_unguarded (data : CCheckpointData)
    (pindex : CBlockIndex)
    (hC : data.nTransactionsLastCheckpoint = 0) (hn : pindex.nChainTx = 0) :
    fWorkBefore data data.nTimeLastCheckpoint pindex = 0 ∧
    fWorkAfter data data.nTimeLastCheckpoint pindex = 0 ∧
    fWorkBefore data data.nTimeLastCheckpoint pindex
      + fWorkAfter data data.nTimeLastCheckpoint pindex = 0 ∧
    GuessVerificationProgressWith data data.nTimeLastCheckpoint (some pindex)
      = Double.nan ∧
    GuessVerificationProgressWith data data.nTimeLastCheckpoint (some pindex)
      ≠ Double.finite 1 := by
  have hle : pindex.nChainTx ≤ data.nTransactionsLastCheckpoint := by
    rw [hC, hn]
  have hw := work_of_le data data.nTimeLastCheckpoint pindex hle
  rw [hC, hn] at hw
  have hb : fWorkBefore data data.nTimeLastCheckpoint pindex = 0 := by
    simp [fWorkBefore, hw]
  have ha : fWorkAfter data data.nTimeLastCheckpoint pindex = 0 := by
    simp [fWorkAfter, hw]
  have hval : GuessVerificationProgressWith data data.nTimeLastCheckpoint (some pindex)
      = Double.nan := by
    simp [GuessVerificationProgressWith, hb, ha, Double.div]
  refine ⟨hb, ha, ?_, hval, ?_⟩
  · rw [hb, ha, add_zero]
  · rw [hval]
    exact Double.noConfusion

theorem GuessVerificationProgress_zero_divisor_unguarded_witness :
    (⟨mapCheckpoints, 1410303386, 0, 100⟩ : CCheckpointData).nTransactionsLastCheckpoint
      = 0 ∧
    (⟨0, 1410300000, 0⟩ : CBlockIndex).nChainTx = 0 ∧
    (fWorkBefore ⟨mapCheckpoints, 1410303386, 0, 100⟩ 1410303386 ⟨0, 1410300000, 0⟩ = 0 ∧
      fWorkAfter ⟨mapCheckpoints, 1410303386, 0, 100⟩ 1410303386 ⟨0, 1410300000, 0⟩ = 0 ∧
      fWorkBefore ⟨mapCheckpoints, 1410303386, 0, 100⟩ 1410303386 ⟨0, 1410300000, 0⟩
        + fWorkAfter ⟨mapCheckpoints, 1410303386, 0, 100⟩ 1410303386
            ⟨0, 1410300000, 0⟩ = 0 ∧
      GuessVerificationProgressWith ⟨mapCheckpoints, 1410303386, 0, 100⟩ 1410303386
        (some ⟨0, 1410300000, 0⟩) = Double.nan ∧
      GuessVerificationProgressWith ⟨mapCheckpoints, 1410303386, 0, 100⟩ 1410303386
        (some ⟨0, 1410300000, 0⟩) ≠ Double.finite 1) :=
  ⟨by decide, by decide,
    GuessVerificationProgress_zero_divisor_unguarded
      ⟨mapCheckpoints, 1410303386, 0, 100⟩ ⟨0, 1410300000, 0⟩ (by decide) (by decide)⟩

/-- C9 (as stated, refuted): on the main network with the clock one day after
the checkpoint time stamp, take node `a` with 62070 transactions and time stamp
two hours before the checkpoint time stamp, and node `b` with 62072
transactions and time stamp one hour before it. Then `a` is behind `b` in
transactions and in time and the clock is later than both time stamps and the
checkpoint time stamp, yet the progress at `a` (62070/62571) is greater than
the progress at `b` (372456/375581). -/
theorem GuessVerificationProgress_not_monotone :
    (⟨61711, 1410303386 - 7200, 62070⟩ : CBlockIndex).nChainTx
        ≤ (⟨61713, 1410303386 - 3600, 62072⟩ : CBlockIndex).nChainTx ∧
    (⟨61711, 1410303386 - 7200, 62070⟩ : CBlockIndex).nTime
        ≤ (⟨61713, 1410303386 - 3600, 62072⟩ : CBlockIndex).nTime ∧
    (⟨61713, 1410303386 - 3600, 62072⟩ : CBlockIndex).nTime ≤ 1410303386 + 86400 ∧
    (Checkpoints false).nTimeLastCheckpoint ≤ 1410303386 + 86400 ∧
    GuessVerificationProgress false (1410303386 + 86400)
        (some ⟨61711, 1410303386 - 7200, 62070⟩) = Double.finite (62070 / 62571) ∧
    GuessVerificationProgress false (1410303386 + 86400)
        (some ⟨61713, 1410303386 - 3600, 62072⟩) = Double.finite (372456 / 375581) ∧
    (372456 / 375581 : ℚ) < 62070 / 62571 := by
  refine ⟨by decide, by decide, by decide, by decide, ?_, ?_, by norm_num⟩
  · simp [GuessVerificationProgress, GuessVerificationProgressWith, Checkpoints, data,
      fWorkBefore, fWorkAfter, work, Double.div, fSigcheckVerificationFactor]
    norm_num
  · simp [GuessVerificationProgress, GuessVerificationProgressWith, Checkpoints, data,
      fWorkBefore, fWorkAfter, work, Double.div, fSigcheckVerificationFactor]
    norm_num

/-- C9 (amended): for fixed registry metadata with a positive checkpoint
transaction count and a non-negative transaction rate (as in both shipped
registries) and a fixed clock value, for any two known nodes `a` and `b` with
`a.nChainTx ≤ b.nChainTx` and `a.nTime ≤ b.nTime`, where the clock is not
earlier than `b.nTime` nor than the checkpoint time stamp, and where `b.nTime`
is not earlier than the checkpoint time stamp whenever `a` falls in the branch
at or before the checkpoint and `b` in the branch after it, both progress
values are finite and the one at `a` is at most the one at `b`. -/
theorem GuessVerificationProgress_mono (data : CCheckpointData)
    (hC : 0 < data.nTransactionsLastCheckpoint) (hr : 0 ≤ data.fTransactionsPerDay)
    (nNow : Int) (a b : CBlockIndex)
    (hn : a.nChainTx ≤ b.nChainTx) (ht : a.nTime ≤ b.nTime)
    (hb : b.nTime ≤ nNow) (hT : data.nTimeLastCheckpoint ≤ nNow)
    (hcross : a.nChainTx ≤ data.nTransactionsLastCheckpoint →
      data.nTransactionsLastCheckpoint < b.nChainTx → data.nTimeLastCheckpoint ≤ b.nTime) :
    ∃ p q : ℚ, GuessVerificationProgressWith data nNow (some a) = Double.finite p ∧
      GuessVerificationProgressWith data nNow (some b) = Double.finite q ∧ p ≤ q := by
  have hCq : (0 : ℚ) < data.nTransactionsLastCheckpoint := by exact_mod_cast hC
  have hnq : (a.nChainTx : ℚ) ≤ b.nChainTx := by exact_mod_cast hn
  have hE := elapsed_work_nonneg hT hr
  have hXb := elapsed_work_nonneg hb hr
  have hXa := elapsed_work_nonneg (le_trans ht hb) hr
  have hXab : ((nNow : ℚ) - b.nTime) / 86400 * data.fTransactionsPerDay * 5
      ≤ ((nNow : ℚ) - a.nTime) / 86400 * data.fTransactionsPerDay * 5 :=
    elapsed_work_anti ht hr
  by_cases ha : a.nChainTx ≤ data.nTransactionsLastCheckpoint
  · have haq : (a.nChainTx : ℚ) ≤ data.nTransactionsLastCheckpoint := by exact_mod_cast ha
    by_cases hb' : b.nChainTx ≤ data.nTransactionsLastCheckpoint
    · simp only [GuessVerificationProgressWith, fWorkBefore, fWorkAfter,
        work_of_le data nNow a ha, work_of_le data nNow b hb']
      have hda : 0 < (a.nChainTx : ℚ) + ((data.nTransactionsLastCheckpoint : ℚ) - a.nChainTx
          + ((nNow : ℚ) - data.nTimeLastCheckpoint) / 86400
            * data.fTransactionsPerDay * 5) := by linarith
      have hdb : 0 < (b.nChainTx : ℚ) + ((data.nTransactionsLastCheckpoint : ℚ) - b.nChainTx
          + ((nNow : ℚ) - data.nTimeLastCheckpoint) / 86400
            * data.fTransactionsPerDay * 5) := by linarith
      refine ⟨_, _, Double.div_of_pos hda, Double.div_of_pos hdb, quotient_mono hda hdb ?_⟩
      have hsum : (0 : ℚ) ≤ (data.nTransactionsLastCheckpoint : ℚ)
          + ((nNow : ℚ) - data.nTimeLastCheckpoint) / 86400
            * data.fTransactionsPerDay * 5 := by linarith
      nlinarith [mul_le_mul_of_nonneg_right hnq hsum]
    · have hgt := not_le.mp hb'
      have hgtq : (data.nTransactionsLastCheckpoint : ℚ) < b.nChainTx := by
        exact_mod_cast hgt
      have hXE : ((nNow : ℚ) - b.nTime) / 86400 * data.fTransactionsPerDay * 5
          ≤ ((nNow : ℚ) - data.nTimeLastCheckpoint) / 86400
            * data.fTransactionsPerDay * 5 :=
        elapsed_work_anti (hcross ha hgt) hr
      simp only [GuessVerificationProgressWith, fWorkBefore, fWorkAfter,
        work_of_le data nNow a ha, work_of_gt data nNow b hgt]
      have hda : 0 < (a.nChainTx : ℚ) + ((data.nTransactionsLastCheckpoint : ℚ) - a.nChainTx
          + ((nNow : ℚ) - data.nTimeLastCheckpoint) / 86400
            * data.fTransactionsPerDay * 5) := by linarith
      have hdb : 0 < (data.nTransactionsLastCheckpoint : ℚ)
          + ((b.nChainTx : ℚ) - data.nTransactionsLastCheckpoint) * 5
          + ((nNow : ℚ) - b.nTime) / 86400 * data.fTransactionsPerDay * 5 := by linarith
      refine ⟨_, _, Double.div_of_pos hda, Double.div_of_pos hdb, quotient_mono hda hdb ?_⟩
      have hW : (0 : ℚ) ≤ (data.nTransactionsLastCheckpoint : ℚ)
          + ((b.nChainTx : ℚ) - data.nTransactionsLastCheckpoint) * 5 := by linarith
      have hWa : (0 : ℚ) ≤ (data.nTransactionsLastCheckpoint : ℚ)
          + ((b.nChainTx : ℚ) - data.nTransactionsLastCheckpoint) * 5 - a.nChainTx := by
        linarith
      nlinarith [mul_nonneg hWa hXb, mul_nonneg hW (sub_nonneg.mpr hXE),
        mul_nonneg hW (sub_nonneg.mpr haq)]
  · have hga := not_le.mp ha
    have hgb : data.nTransactionsLastCheckpoint < b.nChainTx := lt_of_lt_of_le hga hn
    have hgaq : (data.nTransactionsLastCheckpoint : ℚ) < a.nChainTx := by exact_mod_cast hga
    simp only [GuessVerificationProgressWith, fWorkBefore, fWorkAfter,
      work_of_gt data nNow a hga, work_of_gt data nNow b hgb]
    have hda : 0 < (data.nTransactionsLastCheckpoint : ℚ)
        + ((a.nChainTx : ℚ) - data.nTransactionsLastCheckpoint) * 5
        + ((nNow : ℚ) - a.nTime) / 86400 * data.fTransactionsPerDay * 5 := by linarith
    have hdb : 0 < (data.nTransactionsLastCheckpoint : ℚ)
        + ((b.nChainTx : ℚ) - data.nTransactionsLastCheckpoint) * 5
        + ((nNow : ℚ) - b.nTime) / 86400 * data.fTransactionsPerDay * 5 := by linarith
    refine ⟨_, _, Double.div_of_pos hda, Double.div_of_pos hdb, quotient_mono hda hdb ?_⟩
    have hWb : (0 : ℚ) ≤ (data.nTransactionsLastCheckpoint : ℚ)
        + ((b.nChainTx : ℚ) - data.nTransactionsLastCheckpoint) * 5 := by linarith
    have hWab : (0 : ℚ) ≤ ((data.nTransactionsLastCheckpoint : ℚ)
        + ((b.nChainTx : ℚ) - data.nTransactionsLastCheckpoint) * 5)
        - ((data.nTransactionsLastCheckpoint : ℚ)
          + ((a.nChainTx : ℚ) - data.nTransactionsLastCheckpoint) * 5) := by linarith
    nlinarith [mul_nonneg hWab hXb, mul_nonneg hWb (sub_nonneg.mpr hXab)]

theorem GuessVerificationProgress_mono_witness :
    0 < (Checkpoints false).nTransactionsLastCheckpoint ∧
    0 ≤ (Checkpoints false).fTransactionsPerDay ∧
    (⟨61711, 1410303386 - 7200, 62070⟩ : CBlockIndex).nChainTx
        ≤ (⟨61713, 1410303386 + 600, 62072⟩ : CBlockIndex).nChainTx ∧
    (⟨61711, 1410303386 - 7200, 62070⟩ : CBlockIndex).nTime
        ≤ (⟨61713, 1410303386 + 600, 62072⟩ : CBlockIndex).nTime ∧
    (⟨61713, 1410303386 + 600, 62072⟩ : CBlockIndex).nTime ≤ 1410303386 + 86400 ∧
    (Checkpoints false).nTimeLastCheckpoint ≤ 1410303386 + 86400 ∧
    (Checkpoints false).nTimeLastCheckpoint
        ≤ (⟨61713, 1410303386 + 600, 62072⟩ : CBlockIndex).nTime ∧
    ∃ p q : ℚ,
      GuessVerificationProgressWith (Checkpoints false) (1410303386 + 86400)
        (some ⟨61711, 1410303386 - 7200, 62070⟩) = Double.finite p ∧
      GuessVerificationProgressWith (Checkpoints false) (1410303386 + 86400)
        (some ⟨61713, 1410303386 + 600, 62072⟩) = Double.finite q ∧ p ≤ q :=
  ⟨by decide, by norm_num [Checkpoints, data], by decide, by decide, by decide, by decide,
    by decide,
    GuessVerificationProgress_mono (Checkpoints false) (by decide)
      (by norm_num [Checkpoints, data]) (1410303386 + 86400)
      ⟨61711, 1410303386 - 7200, 62070⟩ ⟨61713, 1410303386 + 600, 62072⟩
      (by decide) (by decide) (by decide) (by decide) (fun _ _ => by decide)⟩

/-- C10: `GuessVerificationProgress` returns exactly 0.0 for a null node, for
every clock value and either network mode. -/
theorem GuessVerificationProgress_null (fTestNet : Bool) (nNow : Int) :
    GuessVerificationProgress fTestNet nNow none = Double.finite 0 := by
  rfl

/-! ## GuessVerificationProgress: the two branches -/

theorem Double.div_of_ne {a b : ℚ} (hb : b ≠ 0) :
    Double.div a b = Double.finite (a / b) := by
  simp [Double.div, hb]

/-- C11: for every known node whose transaction count `n` is at most the
checkpoint count `C`, `fWorkBefore` is `n`, `fWorkAfter` is
`(C - n) + (now - checkpointTime)/86400 * txPerDay * 5`, and the value returned
is the `double` quotient of `n` by `n + fWorkAfter`, which is the exact
quotient whenever that divisor is not zero; the value does not depend on the
height or the time stamp of the node. -/
theorem GuessVerificationProgress_caseA (data : CCheckpointData) (nNow : Int)
    (pindex : CBlockIndex)
    (hle : pindex.nChainTx ≤ data.nTransactionsLastCheckpoint) :
    fWorkBefore data nNow pindex = (pindex.nChainTx : ℚ) ∧
    fWorkAfter data nNow pindex =
      ((data.nTransactionsLastCheckpoint : ℚ) - pindex.nChainTx) +
        ((nNow : ℚ) - data.nTimeLastCheckpoint) / 86400 * data.fTransactionsPerDay * 5 ∧
    GuessVerificationProgressWith data nNow (some pindex) =
      Double.div (pindex.nChainTx : ℚ)
        ((pindex.nChainTx : ℚ) +
          (((data.nTransactionsLastCheckpoint : ℚ) - pindex.nChainTx) +
            ((nNow : ℚ) - data.nTimeLastCheckpoint) / 86400
              * data.fTransactionsPerDay * 5)) ∧
    ((pindex.nChainTx : ℚ) +
        (((data.nTransactionsLastCheckpoint : ℚ) - pindex.nChainTx) +
          ((nNow : ℚ) - data.nTimeLastCheckpoint) / 86400
            * data.fTransactionsPerDay * 5) ≠ 0 →
      GuessVerificationProgressWith data nNow (some pindex) =
        Double.finite ((pindex.nChainTx : ℚ) /
          ((pindex.nChainTx : ℚ) +
            (((data.nTransactionsLastCheckpoint : ℚ) - pindex.nChainTx) +
              ((nNow : ℚ) - data.nTimeLastCheckpoint) / 86400
                * data.fTransactionsPerDay * 5)))) ∧
    (∀ nHeight nTime : Int,
      GuessVerificationProgressWith data nNow (some ⟨nHeight, nTime, pindex.nChainTx⟩) =
        GuessVerificationProgressWith data nNow (some pindex)) := by
  have hval : GuessVerificationProgressWith data nNow (some pindex) =
      Double.div (pindex.nChainTx : ℚ)
        ((pindex.nChainTx : ℚ) +
          (((data.nTransactionsLastCheckpoint : ℚ) - pindex.nChainTx) +
            ((nNow : ℚ) - data.nTimeLastCheckpoint) / 86400
              * data.fTransactionsPerDay * 5)) := by
    simp only [GuessVerificationProgressWith, fWorkBefore, fWorkAfter,
      work_of_le data nNow pindex hle]
  refine ⟨?_, ?_, hval, ?_, ?_⟩
  · simp only [fWorkBefore, work_of_le data nNow pindex hle]
  · simp only [fWorkAfter, work_of_le data nNow pindex hle]
  · intro hne
    rw [hval, Double.div_of_ne hne]
  · intro nHeight nTime
    rw [hval]
    simp only [GuessVerificationProgressWith, fWorkBefore, fWorkAfter,
      work_of_le data nNow ⟨nHeight, nTime, pindex.nChainTx⟩ hle]

theorem GuessVerificationProgress_caseA_witness :
    (⟨15, 1410303386 - 600, 500⟩ : CBlockIndex).nChainTx
      ≤ (⟨map_list_of
            [(16, 0x49787d2751d24fa66c9c951a2b6a9fd74e5fab31220324bc7e88c82ff1f6276a)],
          1410303386, 1000, 100⟩ : CCheckpointData).nTransactionsLastCheckpoint ∧
    fWorkBefore
      ⟨map_list_of
          [(16, 0x49787d2751d24fa66c9c951a2b6a9fd74e5fab31220324bc7e88c82ff1f6276a)],
        1410303386, 1000, 100⟩
      (1410303386 + 86400) ⟨15, 1410303386 - 600, 500⟩ = 500 ∧
    fWorkAfter
      ⟨map_list_of
          [(16, 0x49787d2751d24fa66c9c951a2b6a9fd74e5fab31220324bc7e88c82ff1f6276a)],
        1410303386, 1000, 100⟩
      (1410303386 + 86400) ⟨15, 1410303386 - 600, 500⟩ = 1000 ∧
    GuessVerificationProgressWith
      ⟨map_list_of
          [(16, 0x49787d2751d24fa66c9c951a2b6a9fd74e5fab31220324bc7e88c82ff1f6276a)],
        1410303386, 1000, 100⟩
      (1410303386 + 86400) (some ⟨15, 1410303386 - 600, 500⟩) = Double.finite (1 / 3) := by
  have h := GuessVerificationProgress_caseA
    ⟨map_list_of
        [(16, 0x49787d2751d24fa66c9c951a2b6a9fd74e5fab31220324bc7e88c82ff1f6276a)],
      1410303386, 1000, 100⟩
    (1410303386 + 86400) ⟨15, 1410303386 - 600, 500⟩ (by decide)
  refine ⟨by decide, ?_, ?_, ?_⟩
  · rw [h.1]
    norm_num
  · rw [h.2.1]
    norm_num
  · rw [h.2.2.1]
    norm_num [Double.div]

/-- C12: for every known node whose transaction count `n` exceeds the
checkpoint count `C`, `fWorkBefore` is `W = C + (n - C) * 5`, `fWorkAfter` is
`(now - nTime)/86400 * txPerDay * 5`, and the value returned is the `double`
quotient of `W` by `W + fWorkAfter`, which is the exact quotient whenever that
divisor is not zero; the value does not depend on the checkpoint time
stamp. -/
theorem GuessVerificationProgress_caseB (data : CCheckpointData) (nNow : Int)
    (pindex : CBlockIndex)
    (hgt : data.nTransactionsLastCheckpoint < pindex.nChainTx) :
    fWorkBefore data nNow pindex =
      (data.nTransactionsLastCheckpoint : ℚ) +
        ((pindex.nChainTx : ℚ) - data.nTransactionsLastCheckpoint) * 5 ∧
    fWorkAfter data nNow pindex =
      ((nNow : ℚ) - pindex.nTime) / 86400 * data.fTransactionsPerDay * 5 ∧
    GuessVerificationProgressWith data nNow (some pindex) =
      Double.div
        ((data.nTransactionsLastCheckpoint : ℚ) +
          ((pindex.nChainTx : ℚ) - data.nTransactionsLastCheckpoint) * 5)
        ((data.nTransactionsLastCheckpoint : ℚ) +
          ((pindex.nChainTx : ℚ) - data.nTransactionsLastCheckpoint) * 5 +
          ((nNow : ℚ) - pindex.nTime) / 86400 * data.fTransactionsPerDay * 5) ∧
    ((data.nTransactionsLastCheckpoint : ℚ) +
        ((pindex.nChainTx : ℚ) - data.nTransactionsLastCheckpoint) * 5 +
        ((nNow : ℚ) - pindex.nTime) / 86400 * data.fTransactionsPerDay * 5 ≠ 0 →
      GuessVerificationProgressWith data nNow (some pindex) =
        Double.finite
          (((data.nTransactionsLastCheckpoint : ℚ) +
              ((pindex.nChainTx : ℚ) - data.nTransactionsLastCheckpoint) * 5) /
            ((data.nTransactionsLastCheckpoint : ℚ) +
              ((pindex.nChainTx : ℚ) - data.nTransactionsLastCheckpoint) * 5 +
              ((nNow : ℚ) - pindex.nTime) / 86400 * data.fTransactionsPerDay * 5))) ∧
    (∀ nTimeLastCheckpoint : Int,
      GuessVerificationProgressWith
          ⟨data.mapCheckpoints, nTimeLastCheckpoint, data.nTransactionsLastCheckpoint,
            data.fTransactionsPerDay⟩ nNow (some pindex) =
        GuessVerificationProgressWith data nNow (some pindex)) := by
  have hval : GuessVerificationProgressWith data nNow (some pindex) =
      Double.div
        ((data.nTransactionsLastCheckpoint : ℚ) +
          ((pindex.nChainTx : ℚ) - data.nTransactionsLastCheckpoint) * 5)
        ((data.nTransactionsLastCheckpoint : ℚ) +
          ((pindex.nChainTx : ℚ) - data.nTransactionsLastCheckpoint) * 5 +
          ((nNow : ℚ) - pindex.nTime) / 86400 * data.fTransactionsPerDay * 5) := by
    simp only [GuessVerificationProgressWith, fWorkBefore, fWorkAfter,
      work_of_gt data nNow pindex hgt]
  refine ⟨?_, ?_, hval, ?_, ?_⟩
  · simp only [fWorkBefore, work_of_gt data nNow pindex hgt]
  · simp only [fWorkAfter, work_of_gt data nNow pindex hgt]
  · intro hne
    rw [hval, Double.div_of_ne hne]
  · intro T
    rw [hval]
    simp only [GuessVerificationProgressWith, fWorkBefore, fWorkAfter,
      work_of_gt ⟨data.mapCheckpoints, T, data.nTransactionsLastCheckpoint,
        data.fTransactionsPerDay⟩ nNow pindex hgt]

theorem GuessVerificationProgress_caseB_witness :
    (Checkpoints false).nTransactionsLastCheckpoint
      < (⟨61720, 1410303386 + 43200, 62171⟩ : CBlockIndex).nChainTx ∧
    fWorkBefore (Checkpoints false) (1410303386 + 86400)
      ⟨61720, 1410303386 + 43200, 62171⟩ = 62571 ∧
    fWorkAfter (Checkpoints false) (1410303386 + 86400)
      ⟨61720, 1410303386 + 43200, 62171⟩ = 250 ∧
    GuessVerificationProgressWith (Checkpoints false) (1410303386 + 86400)
      (some ⟨61720, 1410303386 + 43200, 62171⟩) = Double.finite (62571 / 62821) := by
  have h := GuessVerificationProgress_caseB (Checkpoints false) (1410303386 + 86400)
    ⟨61720, 1410303386 + 43200, 62171⟩ (by decide)
  refine ⟨by decide, ?_, ?_, ?_⟩
  · rw [h.1]
    norm_num [Checkpoints, data]
  · rw [h.2.1]
    norm_num [Checkpoints, data]
  · rw [h.2.2.1]
    norm_num [Checkpoints, data, Double.div]

/-- C13: for every registry metadata with a positive checkpoint transaction
count `C`, a node whose transaction count equals `C`, queried when the clock
equals the checkpoint time stamp, has `fWorkBefore = C`, `fWorkAfter = 0` and
progress exactly 1.0, whatever its own time stamp. -/
theorem GuessVerificationProgress_zero_elapsed (data : CCheckpointData)
    (hC : 0 < data.nTransactionsLastCheckpoint) (pindex : CBlockIndex)
    (hn : pindex.nChainTx = data.nTransactionsLastCheckpoint) :
    fWorkBefore data data.nTimeLastCheckpoint pindex = data.nTransactionsLastCheckpoint ∧
    fWorkAfter data data.nTimeLastCheckpoint pindex = 0 ∧
    GuessVerificationProgressWith data data.nTimeLastCheckpoint (some pindex) =
      Double.finite 1 := by
  have hle : pindex.nChainTx ≤ data.nTransactionsLastCheckpoint := le_of_eq hn
  have hCq : (data.nTransactionsLastCheckpoint : ℚ) ≠ 0 := by
    have : (0 : ℚ) < data.nTransactionsLastCheckpoint := by exact_mod_cast hC
    exact ne_of_gt this
  have hw := work_of_le data data.nTimeLastCheckpoint pindex hle
  rw [hn] at hw
  have hb : fWorkBefore data data.nTimeLastCheckpoint pindex
      = data.nTransactionsLastCheckpoint := by
    simp only [fWorkBefore, hw]
  have ha : fWorkAfter data data.nTimeLastCheckpoint pindex = 0 := by
    simp only [fWorkAfter, hw]
    ring
  refine ⟨hb, ha, ?_⟩
  simp only [GuessVerificationProgressWith, hb, ha, add_zero]
  rw [Double.div_of_ne hCq, div_self hCq]

theorem GuessVerificationProgress_zero_elapsed_witness :
    0 < (⟨map_list_of
            [(16, 0x49787d2751d24fa66c9c951a2b6a9fd74e5fab31220324bc7e88c82ff1f6276a)],
          1410303386, 1000, 100⟩ : CCheckpointData).nTransactionsLastCheckpoint ∧
    (⟨16, 1410303386, 1000⟩ : CBlockIndex).nChainTx
      = (⟨map_list_of
            [(16, 0x49787d2751d24fa66c9c951a2b6a9fd74e5fab31220324bc7e88c82ff1f6276a)],
          1410303386, 1000, 100⟩ : CCheckpointData).nTransactionsLastCheckpoint ∧
    fWorkBefore
      ⟨map_list_of
          [(16, 0x49787d2751d24fa66c9c951a2b6a9fd74e5fab31220324bc7e88c82ff1f6276a)],
        1410303386, 1000, 100⟩ 1410303386 ⟨16, 1410303386, 1000⟩ = (1000 : Int) ∧
    fWorkAfter
      ⟨map_list_of
          [(16, 0x49787d2751d24fa66c9c951a2b6a9fd74e5fab31220324bc7e88c82ff1f6276a)],
        1410303386, 1000, 100⟩ 1410303386 ⟨16, 1410303386, 1000⟩ = 0 ∧
    GuessVerificationProgressWith
      ⟨map_list_of
          [(16, 0x49787d2751d24fa66c9c951a2b6a9fd74e5fab31220324bc7e88c82ff1f6276a)],
        1410303386, 1000, 100⟩ 1410303386 (some ⟨16, 1410303386, 1000⟩)
      = Double.finite 1 :=
  ⟨by decide, by decide,
    GuessVerificationProgress_zero_elapsed
      ⟨map_list_of
          [(16, 0x49787d2751d24fa66c9c951a2b6a9fd74e5fab31220324bc7e88c82ff1f6276a)],
        1410303386, 1000, 100⟩ (by decide) ⟨16, 1410303386, 1000⟩ (by decide)⟩

/-! ## Registry invariant -/

/-- C14: each shipped table, as a map, holds exactly the entries written in the
source in the order they are written; in both registries the heights increase
strictly along the table, so they are pairwise distinct, a height has at most
one hash, and the last entry holds the largest height. -/
theorem registry_heights_strictly_increasing :
    (mapCheckpoints =
      [ (0, 0xd58888d61baa00c7acd6388356e449ca5d54beacab38361fd48cad0012959a2d),
        (1, 0xc8b400c4920f8fac074a2c0ee9dfbe1238ae8d1058f671ca2a687dce3f020bd3),
        (2, 0x2bb1ba9134dc3586e4ed530f93ceed6bbafddbf0101209dcad0a04e39cf306d2),
        (4, 0x1a25b800b63ce88712c6922b1250650fdedfa69dd4bdc7ce9416f91fa0509656),
        (8, 0x03a74ca916a18c70269295c5dc99cd8324493a0f8a70e197b08940b1a02a4d97),
        (16, 0x49787d2751d24fa66c9c951a2b6a9fd74e5fab31220324bc7e88c82ff1f6276a),
        (32, 0x3e8440b622dfe14d0b31d3ee89743fb4e0461c83fc7736f438ee2a4f58f2c09a),
        (64, 0x049c83dddabb4348cba5b2d33d0983cd1f9f45031dd92f69ecf28720fe768df7),
        (128, 0xc95b575778f4521e3bfa193396303a076a9d10ec026cc5e24c04d8c1bbc006bb),
        (256, 0xeaa0c8504f7072cedfdc9304629ebead05eb2489ea965ddad7647820a6294bc3),
        (512, 0x2f1f852dcb7646424f211f289f01cc494da867899f0a57b6cc7bd6caa1bc78ef),
        (1024, 0xda3ea3b06fec5d586f31b24cb351e3f7f364a2da89731242c7c46190d1494ff2),
        (2048, 0xb073e6cf24e3351b6e48dcd38a3739f51465799a3463cc168bf12fe87b36fb14),
        (4096, 0x9ae88c13647e26a7a2b6fda70375a38564af6bbdfd3d95e54a4df3f6ad4a4935),
        (8192, 0x9576bdfb790f80043f014235d8f803fa0fb1aabd0c3cfea6c87fefed56f56a8a),
        (16384, 0x2c6722c5d7359779e8e564b34358561e734453c414241276440a9ac1bbaa2694),
        (32768, 0x514895ae1a7ff8cb57436fb4ee543f6d6561b21d327e3735403652c300764a1f),
        (61712, 0x302391a7f45300cfd9b40e25526f194206ed05b7193126a0419da5b7c01d746c) ]) ∧
    (mapCheckpointsTestnet =
      [ (546, 0xa0fea99a6897f531600c8ae53367b126824fd6a847b2b2b73817a95b8e27e602) ]) ∧
    (∀ fTestNet : Bool,
      KeysIncreasing (Checkpoints fTestNet).mapCheckpoints ∧
      ((Checkpoints fTestNet).mapCheckpoints.map Prod.fst).Nodup ∧
      (∀ (h : Int) (H1 H2 : uint256),
        (h, H1) ∈ (Checkpoints fTestNet).mapCheckpoints →
        (h, H2) ∈ (Checkpoints fTestNet).mapCheckpoints → H1 = H2) ∧
      ∃ last : Int × uint256,
        (Checkpoints fTestNet).mapCheckpoints.getLast? = some last ∧
        ∀ e ∈ (Checkpoints fTestNet).mapCheckpoints, e.1 ≤ last.1) := by
  refine ⟨mapCheckpoints_eq, mapCheckpointsTestnet_eq, ?_⟩
  intro fTestNet
  refine ⟨registry_increasing fTestNet, ?_, ?_, ?_⟩
  · cases fTestNet <;> decide
  · intro h H1 H2 h1 h2
    have e1 := find_of_mem (registry_increasing fTestNet) h1
    have e2 := find_of_mem (registry_increasing fTestNet) h2
    rw [e1] at e2
    exact Option.some.inj e2
  · cases fTestNet
    · exact ⟨(61712, 0x302391a7f45300cfd9b40e25526f194206ed05b7193126a0419da5b7c01d746c),
        by decide, by decide⟩
    · exact ⟨(546, 0xa0fea99a6897f531600c8ae53367b126824fd6a847b2b2b73817a95b8e27e602),
        by decide, by decide⟩

theorem registry_heights_strictly_increasing_witness :
    (16, 0x49787d2751d24fa66c9c951a2b6a9fd74e5fab31220324bc7e88c82ff1f6276a)
        ∈ (Checkpoints false).mapCheckpoints ∧
      ∀ H2 : uint256, (16, H2) ∈ (Checkpoints false).mapCheckpoints →
        0x49787d2751d24fa66c9c951a2b6a9fd74e5fab31220324bc7e88c82ff1f6276a = H2 :=
  ⟨by decide, fun H2 h2 =>
    (registry_heights_strictly_increasing.2.2 false).2.2.1 16 _ H2 (by decide) h2⟩

/-! ## GuessVerificationProgress under realistic inputs -/

/-- C15: for either shipped registry, every known node with a non-negative
transaction count, and every clock value not earlier than the checkpoint time
stamp nor than the time stamp of the node, the divisor
`fWorkBefore + fWorkAfter` is positive and the value returned is a finite
number between 0 and 1, which is 0 only when the transaction count of the node
is 0. -/
theorem GuessVerificationProgress_realistic (fTestNet : Bool) (nNow : Int)
    (pindex : CBlockIndex) (hn : 0 ≤ pindex.nChainTx)
    (hT : (Checkpoints fTestNet).nTimeLastCheckpoint ≤ nNow)
    (ht : pindex.nTime ≤ nNow) :
    0 < fWorkBefore (Checkpoints fTestNet) nNow pindex
        + fWorkAfter (Checkpoints fTestNet) nNow pindex ∧
    ∃ q : ℚ, GuessVerificationProgress fTestNet nNow (some pindex) = Double.finite q ∧
      0 ≤ q ∧ q ≤ 1 ∧ (q = 0 → pindex.nChainTx = 0) := by
  have hC : 0 < (Checkpoints fTestNet).nTransactionsLastCheckpoint := by
    cases fTestNet <;> decide
  have hr : 0 ≤ (Checkpoints fTestNet).fTransactionsPerDay := by
    cases fTestNet <;> norm_num [Checkpoints, data, dataTestnet]
  have hnow : if pindex.nChainTx ≤ (Checkpoints fTestNet).nTransactionsLastCheckpoint
      then (Checkpoints fTestNet).nTimeLastCheckpoint ≤ nNow else pindex.nTime ≤ nNow := by
    split_ifs
    · exact hT
    · exact ht
  obtain ⟨hw, hx, hpos⟩ := work_bounds (Checkpoints fTestNet) hC hr nNow pindex hn hnow
  have hu := quotient_unit hw hx hpos
  refine ⟨hpos, _, ?_, hu.1, hu.2, ?_⟩
  · simp only [GuessVerificationProgress, GuessVerificationProgressWith]
    exact Double.div_of_pos hpos
  · intro hq
    have hwb : fWorkBefore (Checkpoints fTestNet) nNow pindex = 0 := by
      rcases div_eq_zero_iff.mp hq with h0 | h0
      · exact h0
      · exact absurd h0 (ne_of_gt hpos)
    by_cases hle : pindex.nChainTx ≤ (Checkpoints fTestNet).nTransactionsLastCheckpoint
    · simp only [fWorkBefore, work_of_le (Checkpoints fTestNet) nNow pindex hle] at hwb
      exact_mod_cast hwb
    · have hgt := not_le.mp hle
      have hgq : ((Checkpoints fTestNet).nTransactionsLastCheckpoint : ℚ)
          < pindex.nChainTx := by exact_mod_cast hgt
      have hCq : (0 : ℚ) < (Checkpoints fTestNet).nTransactionsLastCheckpoint := by
        exact_mod_cast hC
      simp only [fWorkBefore, work_of_gt (Checkpoints fTestNet) nNow pindex hgt] at hwb
      linarith

theorem GuessVerificationProgress_realistic_witness :
    (0 : Int) ≤ (⟨545, 1365458000, 546⟩ : CBlockIndex).nChainTx ∧
    (Checkpoints true).nTimeLastCheckpoint ≤ 1365458829 + 3600 ∧
    (⟨545, 1365458000, 546⟩ : CBlockIndex).nTime ≤ 1365458829 + 3600 ∧
    (0 < fWorkBefore (Checkpoints true) (1365458829 + 3600) ⟨545, 1365458000, 546⟩
        + fWorkAfter (Checkpoints true) (1365458829 + 3600) ⟨545, 1365458000, 546⟩ ∧
      ∃ q : ℚ, GuessVerificationProgress true (1365458829 + 3600)
          (some ⟨545, 1365458000, 546⟩) = Double.finite q ∧
        0 ≤ q ∧ q ≤ 1 ∧ (q = 0 → (⟨545, 1365458000, 546⟩ : CBlockIndex).nChainTx = 0)) :=
  ⟨by decide, by decide, by decide,
    GuessVerificationProgress_realistic true (1365458829 + 3600)
      ⟨545, 1365458000, 546⟩ (by decide) (by decide) (by decide)⟩

/-! ## Relations between the operations -/

theorem GetLastCheckpoint_enabled (fTestNet : Bool) (mapBlockIndex : MapBlockIndex) :
    GetLastCheckpoint true fTestNet mapBlockIndex =
      scanCheckpoints mapBlockIndex (Checkpoints fTestNet).mapCheckpoints.reverse := by
  simp [GetLastCheckpoint]

theorem CheckBlock_registered (fTestNet : Bool) {h : Int} {H : uint256}
    (hmem : (h, H) ∈ (Checkpoints fTestNet).mapCheckpoints) :
    CheckBlock true fTestNet h H = true := by
  have hf := find_of_mem (registry_increasing fTestNet) hmem
  simp [CheckBlock, hf]

/-- With enforcement enabled `GetTotalBlocksEstimate` returns a height that no
key of the selected registry exceeds, and every key is at least 0. -/
theorem registry_key_range (fTestNet : Bool) :
    ∃ m : Int, GetTotalBlocksEstimate true fTestNet = some m ∧
      ∀ e ∈ (Checkpoints fTestNet).mapCheckpoints, 0 ≤ e.1 ∧ e.1 ≤ m := by
  cases fTestNet
  · exact ⟨61712, by decide, by decide⟩
  · exact ⟨546, by decide, by decide⟩

/-- C16: with enforcement enabled, whenever `GetLastCheckpoint` returns a node,
the selected registry has a checkpoint `(h, H)` such that the index maps `H` to
that node, `CheckBlock h H` is true, and `h` is at most the height returned by
`GetTotalBlocksEstimate`. -/
theorem GetLastCheckpoint_anchor (fTestNet : Bool) (mapBlockIndex : MapBlockIndex)
    (node : CBlockIndex)
    (hret : GetLastCheckpoint true fTestNet mapBlockIndex = some node) :
    ∃ (h : Int) (H : uint256), (h, H) ∈ (Checkpoints fTestNet).mapCheckpoints ∧
      mapBlockIndex.find H = some (some node) ∧
      CheckBlock true fTestNet h H = true ∧
      ∃ m : Int, GetTotalBlocksEstimate true fTestNet = some m ∧ h ≤ m := by
  rw [GetLastCheckpoint_enabled] at hret
  have hex : ∃ e ∈ (Checkpoints fTestNet).mapCheckpoints.reverse,
      (mapBlockIndex.find e.2).isSome = true := by
    by_contra hno
    have hall : ∀ e ∈ (Checkpoints fTestNet).mapCheckpoints.reverse,
        mapBlockIndex.find e.2 = none := by
      intro e he
      cases hf : mapBlockIndex.find e.2 with
      | none => rfl
      | some q => exact absurd ⟨e, he, by rw [hf]; rfl⟩ hno
    rw [scanCheckpoints_none mapBlockIndex _ hall] at hret
    cases hret
  obtain ⟨e, he, p, hp, hscan, _⟩ :=
    scanCheckpoints_first mapBlockIndex _
      (reverse_decreasing (registry_increasing fTestNet)) hex
  have hmem : (e.1, e.2) ∈ (Checkpoints fTestNet).mapCheckpoints := List.mem_reverse.mp he
  have hpn : p = some node := by rw [← hscan, hret]
  obtain ⟨m, hm, hrange⟩ := registry_key_range fTestNet
  refine ⟨e.1, e.2, hmem, ?_, CheckBlock_registered fTestNet hmem, m, hm, ?_⟩
  · rw [hp, hpn]
  · exact (hrange e (List.mem_reverse.mp he)).2

theorem GetLastCheckpoint_anchor_witness :
    GetLastCheckpoint true false
        [ (0x49787d2751d24fa66c9c951a2b6a9fd74e5fab31220324bc7e88c82ff1f6276a,
            some ⟨16, 1400000000, 17⟩),
          (0x049c83dddabb4348cba5b2d33d0983cd1f9f45031dd92f69ecf28720fe768df7,
            some ⟨64, 1400003000, 65⟩) ] = some ⟨64, 1400003000, 65⟩ ∧
    ∃ (h : Int) (H : uint256), (h, H) ∈ (Checkpoints false).mapCheckpoints ∧
      MapBlockIndex.find
        [ (0x49787d2751d24fa66c9c951a2b6a9fd74e5fab31220324bc7e88c82ff1f6276a,
            some ⟨16, 1400000000, 17⟩),
          (0x049c83dddabb4348cba5b2d33d0983cd1f9f45031dd92f69ecf28720fe768df7,
            some ⟨64, 1400003000, 65⟩) ] H = some (some ⟨64, 1400003000, 65⟩) ∧
      CheckBlock true false h H = true ∧
      ∃ m : Int, GetTotalBlocksEstimate true false = some m ∧ h ≤ m :=
  ⟨by decide, GetLastCheckpoint_anchor false _ ⟨64, 1400003000, 65⟩ (by decide)⟩

/-- C17: with enforcement enabled, `GetTotalBlocksEstimate` returns a height
`m` such that `CheckBlock` is true at every height above `m` for every hash;
`CheckBlock` is false only at heights from 0 to `m`. -/
theorem CheckBlock_above_estimate (fTestNet : Bool) :
    ∃ m : Int, GetTotalBlocksEstimate true fTestNet = some m ∧
      (∀ (h : Int) (hash : uint256), m < h → CheckBlock true fTestNet h hash = true) ∧
      (∀ (h : Int) (hash : uint256),
        CheckBlock true fTestNet h hash = false → 0 ≤ h ∧ h ≤ m) := by
  obtain ⟨m, hm, hrange⟩ := registry_key_range fTestNet
  have hfalse : ∀ (h : Int) (hash : uint256),
      CheckBlock true fTestNet h hash = false → 0 ≤ h ∧ h ≤ m := by
    intro h hash hcb
    cases hf : (Checkpoints fTestNet).mapCheckpoints.find h with
    | none => simp [CheckBlock, hf] at hcb
    | some v => exact hrange (h, v) (find_eq_some_mem hf)
  refine ⟨m, hm, ?_, hfalse⟩
  intro h hash hlt
  cases hcb : CheckBlock true fTestNet h hash with
  | true => rfl
  | false => exact absurd hlt (not_lt.mpr (hfalse h hash hcb).2)

theorem CheckBlock_above_estimate_witness :
    GetTotalBlocksEstimate true false = some 61712 ∧ (61712 : Int) < 61713 ∧
      CheckBlock true false 61713 7 = true := by
  obtain ⟨m, hm, habove, _⟩ := CheckBlock_above_estimate false
  have h2 : GetTotalBlocksEstimate true false = some 61712 := by decide
  have hm' : m = 61712 := by
    rw [h2] at hm
    exact (Option.some.inj hm).symm
  refine ⟨h2, by decide, habove 61713 7 ?_⟩
  rw [hm']
  decide

/-- C18: for both network modes the selected registry is not empty, so its
`rbegin()` is an entry, and `GetTotalBlocksEstimate` returns a value for every
setting of the enforcement flag and either network mode. -/
theorem GetTotalBlocksEstimate_defined :
    (∀ fTestNet : Bool, (Checkpoints fTestNet).mapCheckpoints ≠ []) ∧
    (∀ fTestNet : Bool, (Checkpoints fTestNet).mapCheckpoints.rbegin.isSome = true) ∧
    (∀ fCheckpoints fTestNet : Bool,
      (GetTotalBlocksEstimate fCheckpoints fTestNet).isSome = true) := by
  refine ⟨?_, ?_, ?_⟩
  · intro fTestNet
    cases fTestNet <;> decide
  · intro fTestNet
    cases fTestNet <;> decide
  · intro fCheckpoints fTestNet
    cases fCheckpoints <;> cases fTestNet <;> decide

end Checkpoints
